import Mathlib

/-!
Shallow embedding of the SLA-PUZZLE backend (Express/MySQL) core logic:
the reward/leveling economy and game utilities (`src/utils/gameUtils.js`,
shipped here as `src/unnamed/part_009`), the achievement unlock endpoint
(`src/unnamed/part_003`), the single-player completion transaction
(`routes/games.js`, shipped concatenated into `src/Dockerfile`), and the
multiplayer room lifecycle (`src/src/app.js`).

Numeric modelling: the JavaScript code computes on IEEE doubles, but every
value involved is a small non-negative integer, and each fractional
operation is exact at this scale, so we model numbers as `Nat`/`Int`:
`Math.floor(x * 0.5) = x / 2`, `Math.floor(x * 0.3) = 3 * x / 10`,
`Math.floor(x * 0.2) = x / 5` (Nat division), and
`moves <= totalPieces * 1.5` iff `2 * moves ≤ 3 * totalPieces`.
-/

/-- Puzzle difficulty levels accepted by the validators
(`['easy', 'medium', 'hard', 'expert']`). -/
inductive Difficulty
  | easy
  | medium
  | hard
  | expert
deriving DecidableEq, Repr

/-- A `{coins, experience}` reward pair (`gameUtils.js`). -/
structure Rewards where
  coins : Nat
  experience : Nat
deriving DecidableEq, Repr

/-- The `baseRewards` object literal allocated at each call of
`calculateGameRewards` (gameUtils.js lines 63-68). One field per key. -/
structure RewardTable where
  easy : Rewards
  medium : Rewards
  hard : Rewards
  expert : Rewards
deriving DecidableEq, Repr

/-- Reading `baseRewards[difficulty]` (for a valid difficulty the
`|| baseRewards.easy` fallback never fires). -/
def RewardTable.get (t : RewardTable) : Difficulty → Rewards
  | .easy => t.easy
  | .medium => t.medium
  | .hard => t.hard
  | .expert => t.expert

/-- Writing through the `rewards` alias into the table entry
(`let rewards = baseRewards[difficulty]` makes `rewards` an alias of the
table entry, so `rewards.coins += …` also mutates the table). -/
def RewardTable.set (t : RewardTable) : Difficulty → Rewards → RewardTable
  | .easy, r => { t with easy := r }
  | .medium, r => { t with medium := r }
  | .hard, r => { t with hard := r }
  | .expert, r => { t with expert := r }

/-- The fresh `baseRewards` literal: easy {10,15}, medium {20,25},
hard {35,40}, expert {50,60} (gameUtils.js lines 63-68). -/
def mkBaseRewards : RewardTable :=
  { easy := ⟨10, 15⟩, medium := ⟨20, 25⟩, hard := ⟨35, 40⟩, expert := ⟨50, 60⟩ }

/-- Input of `calculateGameRewards` / `calculateGameScore`
(the destructured `gameData` fields). -/
structure GameData where
  difficulty : Difficulty
  totalPieces : Nat
  completionTime : Nat
  moves : Nat
deriving DecidableEq, Repr

/-- The `speedThresholds` table (gameUtils.js lines 80-85):
easy 180s, medium 300s, hard 600s, expert 900s. -/
def speedThresholds : Difficulty → Nat
  | .easy => 180
  | .medium => 300
  | .hard => 600
  | .expert => 900

/-- Body of `calculateGameRewards` (gameUtils.js lines 59-102), made
explicit about the aliasing: `rewards` starts as the table entry for the
difficulty, each bonus block updates `rewards` in place (so the percentage
bonuses compound on the running value, and the final value is also written
back through the alias into the table).  Returns the result together with
the table as mutated through the alias. -/
def calculateGameRewardsBody (g : GameData) (table : RewardTable) :
    Rewards × RewardTable :=
  let r0 := table.get g.difficulty
  -- efficiency bonus: moves <= totalPieces * 1.5
  let r1 := if 2 * g.moves ≤ 3 * g.totalPieces then
      ⟨r0.coins + r0.coins / 2, r0.experience + 3 * r0.experience / 10⟩
    else r0
  -- speed bonus: completionTime <= speedThresholds[difficulty]
  let r2 := if g.completionTime ≤ speedThresholds g.difficulty then
      ⟨r1.coins + 3 * r1.coins / 10, r1.experience + r1.experience / 5⟩
    else r1
  -- size bonus
  let r3 := if 25 ≤ g.totalPieces then ⟨r2.coins + 10, r2.experience + 15⟩
    else if 16 ≤ g.totalPieces then ⟨r2.coins + 5, r2.experience + 8⟩
    else r2
  (r3, table.set g.difficulty r3)

/-- `calculateGameRewards(gameData)`: each call allocates a fresh
`baseRewards` table (a `const` local of the function body) and runs the
body on it; only the computed reward pair escapes the call. -/
def calculateGameRewards (g : GameData) : Rewards :=
  (calculateGameRewardsBody g mkBaseRewards).1

/-- Running a sequence of `calculateGameRewards` calls.  The accumulator
carries the tables left over from earlier calls — the only mutable objects
the function ever touches — to make it explicit that a later call never
reads them: each call allocates `mkBaseRewards` afresh. -/
def runRewardCalls (heap : List RewardTable) :
    List GameData → List RewardTable × List Rewards
  | [] => (heap, [])
  | g :: gs =>
    let r := calculateGameRewardsBody g mkBaseRewards
    let rest := runRewardCalls (heap ++ [r.2]) gs
    (rest.1, r.1 :: rest.2)

/-- The `baseScores` table of `calculateGameScore` (gameUtils.js
lines 113-118). -/
def baseScores : Difficulty → Nat
  | .easy => 100
  | .medium => 200
  | .hard => 350
  | .expert => 500

/-- `calculateGameScore(gameData)` (gameUtils.js lines 109-134).  The JS
value can temporarily go negative before the final `Math.max(score, 0)`;
over `Nat`, truncated subtraction of the moves penalty is exactly that
final clamp (time bonus `Math.max(0, 1000 - completionTime)` is likewise
truncated subtraction). -/
def calculateGameScore (g : GameData) : Nat :=
  let base := baseScores g.difficulty
  let withPieces := base + g.totalPieces * 5
  let timeBonus := 1000 - g.completionTime
  let withTime := withPieces + timeBonus / 10
  let movesPenalty := g.moves - g.totalPieces
  withTime - movesPenalty * 2

/-- A `user_best_times` row as read by the completion route
(`best_time`, `best_moves`). -/
structure BestRecord where
  best_time : Nat
  best_moves : Nat
deriving DecidableEq, Repr

/-- `isNewRecord(currentGame, bestRecord)` (gameUtils.js lines 142-157):
true when no prior record, or strictly faster, or equal time with
strictly fewer moves. -/
def isNewRecord (g : GameData) (best : Option BestRecord) : Bool :=
  match best with
  | none => true
  | some b =>
    if g.completionTime < b.best_time then true
    else if g.completionTime = b.best_time ∧ g.moves < b.best_moves then true
    else false

/-- `getRequiredExpForLevel(level)` (gameUtils.js lines 11-14):
`0` for `level <= 1`, else `200 * level - 100`. -/
def getRequiredExpForLevel (level : Nat) : Int :=
  if level ≤ 1 then 0 else 200 * (level : Int) - 100

/-- The `while` loop of `calculateLevelFromExp` (gameUtils.js lines 24-28):
increment `level` while `getRequiredExpForLevel(level + 1) <= totalExp`. -/
def levelLoop (totalExp : Int) (level : Nat) : Nat :=
  if getRequiredExpForLevel (level + 1) ≤ totalExp then
    levelLoop totalExp (level + 1)
  else level
termination_by ((totalExp + 100) / 200).toNat + 1 - level
decreasing_by
  rename_i h
  unfold getRequiredExpForLevel at h
  rcases Nat.eq_zero_or_pos level with h0 | h1
  · subst h0
    simp at h
    omega
  · have h2 : ¬ (level + 1 ≤ 1) := by omega
    rw [if_neg h2] at h
    have h3 : ((level : Int) + 1) * 200 ≤ totalExp + 100 := by push_cast at h ⊢; omega
    have h4 : ((level : Int) + 1) ≤ (totalExp + 100) / 200 :=
      (Int.le_ediv_iff_mul_le (by omega)).mpr h3
    have h5 : level + 1 ≤ ((totalExp + 100) / 200).toNat := by
      have := Int.toNat_le_toNat h4
      simpa using this
    omega

/-- `calculateLevelFromExp(totalExp)` (gameUtils.js lines 21-29):
`1` for `totalExp <= 0`, else the loop starting at level 1. -/
def calculateLevelFromExp (totalExp : Int) : Nat :=
  if totalExp ≤ 0 then 1 else levelLoop totalExp 1

/-- An `achievements` catalog row (the columns the unlock endpoint reads). -/
structure Achievement where
  maxProgress : Nat
  rewardCoins : Nat
  rewardExperience : Nat
deriving DecidableEq, Repr

/-- A `user_achievements` row (`progress`, `is_unlocked`, `unlocked_at`). -/
structure UserAchievement where
  progress : Nat
  isUnlocked : Bool
  unlockedAt : Option Nat
deriving DecidableEq, Repr

/-- A `user_stats` row (the columns the routes touch). -/
structure UserStats where
  level : Nat
  experience : Nat
  coins : Nat
  totalScore : Nat
  gamesCompleted : Nat
deriving DecidableEq, Repr

/-- The database state one unlock call can read or write: the caller's
`user_achievements` row for the chosen achievement (if any) and the
caller's `user_stats` row. -/
structure UnlockState where
  userAchievement : Option UserAchievement
  stats : UserStats
deriving DecidableEq, Repr

/-- What the unlock endpoint reports back. -/
structure UnlockOutcome where
  alreadyUnlocked : Bool
  wasUnlocked : Bool
  rewardsGiven : Bool
  progressReported : Nat
deriving DecidableEq, Repr

/-- The transaction body of `POST /api/achievements/unlock`
(`src/unnamed/part_003` lines 158-231); the spec calls it `applyProgress`.
`progressDelta` is the request's `progress` field (default 1), `now` the
timestamp used for `unlocked_at`.  The reward condition is transcribed
exactly as written in the source, with JavaScript precedence
(`&&` binds tighter than `||`):
`wasUnlocked && achievement.reward_coins > 0 || achievement.reward_experience > 0`. -/
def applyProgress (a : Achievement) (progressDelta : Nat) (now : Nat)
    (st : UnlockState) : UnlockState × UnlockOutcome :=
  match st.userAchievement with
  | some ua =>
    if ua.isUnlocked then
      -- already unlocked: return before any write
      (st, { alreadyUnlocked := true, wasUnlocked := false,
             rewardsGiven := false, progressReported := ua.progress })
    else
      let newProgress := min (ua.progress + progressDelta) a.maxProgress
      let wasUnlocked := decide (a.maxProgress ≤ newProgress)
      let row : UserAchievement :=
        { progress := newProgress, isUnlocked := wasUnlocked,
          unlockedAt := if wasUnlocked then some now else none }
      let st1 : UnlockState := { st with userAchievement := some row }
      let credited : UserStats :=
        { st1.stats with
          coins := st1.stats.coins + a.rewardCoins
          experience := st1.stats.experience + a.rewardExperience }
      if (wasUnlocked && decide (0 < a.rewardCoins)) || decide (0 < a.rewardExperience) then
        ({ st1 with stats := credited },
         { alreadyUnlocked := false, wasUnlocked := wasUnlocked,
           rewardsGiven := true, progressReported := newProgress })
      else
        (st1, { alreadyUnlocked := false, wasUnlocked := wasUnlocked,
                rewardsGiven := false, progressReported := newProgress })
  | none =>
    let newProgress := min progressDelta a.maxProgress
    let wasUnlocked := decide (a.maxProgress ≤ newProgress)
    let row : UserAchievement :=
      { progress := newProgress, isUnlocked := wasUnlocked,
        unlockedAt := if wasUnlocked then some now else none }
    let st1 : UnlockState := { st with userAchievement := some row }
    let credited : UserStats :=
      { st1.stats with
        coins := st1.stats.coins + a.rewardCoins
        experience := st1.stats.experience + a.rewardExperience }
    if (wasUnlocked && decide (0 < a.rewardCoins)) || decide (0 < a.rewardExperience) then
      ({ st1 with stats := credited },
       { alreadyUnlocked := false, wasUnlocked := wasUnlocked,
         rewardsGiven := true, progressReported := newProgress })
    else
      (st1, { alreadyUnlocked := false, wasUnlocked := wasUnlocked,
              rewardsGiven := false, progressReported := newProgress })

/-- A `game_records` row (the columns written by the completion route). -/
structure GameRecordRow where
  completionTime : Nat
  moves : Nat
  score : Nat
  coinsEarned : Nat
  experienceEarned : Nat
deriving DecidableEq, Repr

/-- A `leaderboard` row (the columns written by the completion route). -/
structure LeaderboardRow where
  completionTime : Nat
  moves : Nat
  score : Nat
deriving DecidableEq, Repr

/-- A `user_recent_games` row. -/
structure RecentGame where
  moves : Nat
  totalPieces : Nat
  completionTime : Nat
deriving DecidableEq, Repr

/-- The slice of the database one `POST /api/games/complete` call touches:
the caller's game records, the `user_best_times` row for the submitted
(difficulty, piece shape, grid size) key, the caller's `user_stats` row
(`none` models a missing row), recent games (newest last), and the
leaderboard (append order). -/
structure GamesDb where
  gameRecords : List GameRecordRow
  bestRecord : Option BestRecord
  stats : Option UserStats
  recentGames : List RecentGame
  leaderboard : List LeaderboardRow
deriving DecidableEq, Repr

/-- The payload the completion route returns on success. -/
structure CompleteOutcome where
  score : Nat
  rewards : Rewards
  newRecord : Bool
  leveledUp : Bool
  addedToLeaderboard : Bool
deriving DecidableEq, Repr

/-- The `ON DUPLICATE KEY UPDATE` upsert on `user_best_times`
(`routes/games.js`, lines 105-119 of the concatenated file):
`best_time = LEAST(best_time, new_time)`; `best_moves` taken from the new
game when strictly faster, the minimum when the times are equal, kept
otherwise. -/
def upsertBestRecord (g : GameData) : Option BestRecord → BestRecord
  | none => ⟨g.completionTime, g.moves⟩
  | some b =>
    { best_time := min b.best_time g.completionTime,
      best_moves :=
        if g.completionTime < b.best_time then g.moves
        else if b.best_time = g.completionTime then min b.best_moves g.moves
        else b.best_moves }

/-- The transaction body of `POST /api/games/complete` (`routes/games.js`,
lines 74-194 of the concatenated file), step by step in source order:
insert the game record, check/update the best record, read `user_stats`
(throwing when the row is missing — the `InvariantViolation`), credit the
economy, append the recent game and prune to the newest 10, and append a
leaderboard row when `newRecord || score > 1000`. -/
def completeGameBody (g : GameData) (db : GamesDb) :
    Except Unit (GamesDb × CompleteOutcome) :=
  let rewards := calculateGameRewards g
  let score := calculateGameScore g
  let newGameRow : GameRecordRow :=
    ⟨g.completionTime, g.moves, score, rewards.coins, rewards.experience⟩
  let db1 := { db with gameRecords := db.gameRecords ++ [newGameRow] }
  let newRecord := isNewRecord g db.bestRecord
  let db2 := if newRecord then
      { db1 with bestRecord := some (upsertBestRecord g db.bestRecord) }
    else db1
  match db2.stats with
  | none => .error ()  -- throw new Error('用户统计数据不存在')
  | some st =>
    let newExperience := st.experience + rewards.experience
    let newLevel := calculateLevelFromExp (newExperience : Int)
    let leveledUp := decide (st.level < newLevel)
    let newStats : UserStats :=
      { level := newLevel, experience := newExperience,
        coins := st.coins + rewards.coins,
        totalScore := st.totalScore + score,
        gamesCompleted := st.gamesCompleted + 1 }
    let db3 := { db2 with stats := some newStats }
    let newRecent : RecentGame := ⟨g.moves, g.totalPieces, g.completionTime⟩
    let recent := db3.recentGames ++ [newRecent]
    -- keep only the 10 newest rows (newest last)
    let db4 := { db3 with recentGames := recent.drop (recent.length - 10) }
    let shouldAdd := newRecord || decide (1000 < score)
    let newLbRow : LeaderboardRow := ⟨g.completionTime, g.moves, score⟩
    let db5 := if shouldAdd then
        { db4 with leaderboard := db4.leaderboard ++ [newLbRow] }
      else db4
    .ok (db5, { score := score, rewards := rewards, newRecord := newRecord,
                leveledUp := leveledUp, addedToLeaderboard := shouldAdd })

/-- `transaction(callback)` from `config/database.js`: commit the body's
writes on success, roll everything back when the body throws. -/
def runTransaction {σ ρ : Type} (st : σ) (body : σ → Except Unit (σ × ρ)) :
    σ × Except Unit ρ :=
  match body st with
  | .ok (st', r) => (st', .ok r)
  | .error e => (st, .error e)

/-- The observable effect of one `POST /api/games/complete` call. -/
def completeGame (g : GameData) (db : GamesDb) : GamesDb × Except Unit CompleteOutcome :=
  runTransaction db (completeGameBody g)

/-- The alphabet of `generateRoomCode` (app.js line 449):
`'ABCDEFGHIJKLMNOPQRSTUVWXYZ0123456789'`, 36 characters. -/
def roomCodeChars : List Char :=
  "ABCDEFGHIJKLMNOPQRSTUVWXYZ0123456789".toList

/-- `generateRoomCode()` (app.js lines 448-455): eight characters, each
picked by `chars.charAt(Math.floor(Math.random() * chars.length))`.
`draw i` is the i-th random index (always `< 36`, so the `getD` default
is unreachable). -/
def generateRoomCode (draw : Nat → Fin 36) : String :=
  String.mk ((List.range 8).map fun i => roomCodeChars.getD (draw i).val 'A')

/-- The `do … while (await isRoomCodeExists(roomCode) && attempts < maxAttempts)`
loop of `generateUniqueRoomCode` (app.js lines 481-484), with
`maxAttempts = 10`.  `attempts` counts the attempts already started (the
source increments it inside the body); `fuel = 9 - attempts` is the number
of times the guard `attempts < maxAttempts` can still allow another
iteration, so at `fuel = 0` the loop exits after the current attempt no
matter what the uniqueness check says.  Returns the last generated code
and the final value of `attempts`. -/
def roomCodeAttemptsLoop (gen : Nat → String) (taken : String → Bool) :
    Nat → Nat → String × Nat
  | attempts, 0 => (gen attempts, attempts + 1)
  | attempts, fuel + 1 =>
    let code := gen attempts
    if taken code then roomCodeAttemptsLoop gen taken (attempts + 1) fuel
    else (code, attempts + 1)

/-- `generateUniqueRoomCode()` (app.js lines 476-491): run the retry loop,
then `if (attempts >= maxAttempts) throw …` — modelled as `none`
(the `CodeAllocationExhausted` condition); otherwise return the code.
`draws a` supplies the random indices of attempt `a`; `taken` is
`isRoomCodeExists` (true when a non-terminal room holds the code, or on a
database error). -/
def generateUniqueRoomCode (draws : Nat → Nat → Fin 36)
    (taken : String → Bool) : Option String :=
  let r := roomCodeAttemptsLoop (fun a => generateRoomCode (draws a)) taken 0 9
  if 10 ≤ r.2 then none else some r.1

/-- `multiplayer_rooms.status` values. -/
inductive RoomStatus
  | waiting
  | ready
  | playing
  | finished
  | closed
deriving DecidableEq, Repr

/-- `room_players.player_status` values. -/
inductive PlayerStatus
  | joined
  | ready
  | playing
  | finished
  | disconnected
deriving DecidableEq, Repr

/-- A `room_players` row (the columns the readiness/start claims need). -/
structure RoomPlayer where
  userId : Nat
  status : PlayerStatus
  isHost : Bool
  readyAt : Option Nat
deriving DecidableEq, Repr

/-- A `multiplayer_rooms` row together with its player rows. -/
structure Room where
  hostUserId : Nat
  status : RoomStatus
  players : List RoomPlayer
  gameStartedAt : Option Nat
deriving DecidableEq, Repr

/-- Failure discriminants of the multiplayer endpoints. -/
inductive RoomErr
  | roomNotFound      -- 404: room absent or not in the required status
  | playerNotFound    -- 404: caller has no row in the room
  | notEnoughPlayers  -- 400: fewer than 2 players
  | playersNotReady   -- 400: some non-host player is not ready
deriving DecidableEq, Repr

instance {ε α : Type} [DecidableEq ε] [DecidableEq α] :
    DecidableEq (Except ε α) := fun a b =>
  match a, b with
  | .ok a, .ok b =>
    if h : a = b then .isTrue (by rw [h]) else .isFalse (by simp [h])
  | .error a, .error b =>
    if h : a = b then .isTrue (by rw [h]) else .isFalse (by simp [h])
  | .ok _, .error _ => .isFalse (by simp)
  | .error _, .ok _ => .isFalse (by simp)

/-- `POST /rooms/:roomCode/ready` (app.js lines 771-837): requires room
status `waiting` or `ready`; sets the caller's row to `ready` with
`ready_at = NOW()` (404 when the caller has no row); then, if the room has
at least 2 players and every player is `ready`, moves the room to
status `ready`. -/
def setReady (now userId : Nat) (room : Room) : Except RoomErr Room :=
  if room.status = .waiting ∨ room.status = .ready then
    if room.players.any (fun p => p.userId = userId) then
      let players := room.players.map fun p =>
        if p.userId = userId then { p with status := .ready, readyAt := some now }
        else p
      let total := players.length
      let readyCount := players.countP (fun p => p.status = .ready)
      let status := if 2 ≤ total ∧ readyCount = total then RoomStatus.ready
        else room.status
      .ok { room with players := players, status := status }
    else .error .playerNotFound
  else .error .roomNotFound

/-- `POST /rooms/:roomCode/start` (app.js lines 843-919): the lookup query
requires `host_user_id = userId` **and** `status = "waiting"` (404
otherwise); then at least 2 players; then every non-host player `ready`;
on success the room moves to `playing` with `game_started_at = NOW()` and
every player's status becomes `playing`. -/
def startGame (now userId : Nat) (room : Room) : Except RoomErr Room :=
  if room.hostUserId = userId ∧ room.status = .waiting then
    if room.players.length < 2 then .error .notEnoughPlayers
    else if (room.players.filter (fun p => !p.isHost)).all
        (fun p => p.status = .ready) then
      .ok { room with
            status := .playing
            gameStartedAt := some now
            players := room.players.map fun p => { p with status := .playing } }
    else .error .playersNotReady
  else .error .roomNotFound

/-- A `room_players` row at settlement time, when every player has
finished and `completion_time`, `moves_count`, `finished_at` are all
populated. -/
structure FinishedRow where
  userId : Nat
  completionTime : Nat
  movesCount : Nat
  finishedAt : Nat
deriving DecidableEq, Repr

/-- The strict precedence used by the closure rank update (app.js
lines 987-989): strictly smaller `completion_time`, or equal time and
strictly fewer `moves_count`, or equal on both and strictly earlier
`finished_at`. -/
def strictlyPrecedes (a b : FinishedRow) : Bool :=
  (a.completionTime < b.completionTime) ||
  (a.completionTime = b.completionTime && a.movesCount < b.movesCount) ||
  (a.completionTime = b.completionTime && a.movesCount = b.movesCount &&
    a.finishedAt < b.finishedAt)

/-- The closure rank update (app.js lines 981-993): each row's
`rank_position` is `COUNT(*) + 1` over the room's rows that strictly
precede it (the row itself never strictly precedes itself). -/
def rankPosition (rows : List FinishedRow) (p : FinishedRow) : Nat :=
  1 + rows.countP (fun q => strictlyPrecedes q p)

/-- The non-strict version of the settlement order, used to model
`ORDER BY completion_time ASC, moves_count ASC, finished_at ASC`. -/
def finishOrderLe (a b : FinishedRow) : Bool :=
  !(strictlyPrecedes b a)

/-- The winner query of closure (app.js lines 997-1000):
`ORDER BY completion_time ASC, moves_count ASC, finished_at ASC LIMIT 1`,
i.e. a row minimal in the settlement order. -/
def winnerRow (rows : List FinishedRow) : Option FinishedRow :=
  (rows.mergeSort finishOrderLe).head?

/-- Modelled from the spec's words for comparison with the source
(claim C3, spec §4.4): every bonus is "applied additively and
independently" to the per-difficulty base, i.e. each percentage bonus is
computed from the base values, not from the running total. -/
def claimIndependentRewards (g : GameData) : Rewards :=
  let base := mkBaseRewards.get g.difficulty
  let effC := if 2 * g.moves ≤ 3 * g.totalPieces then base.coins / 2 else 0
  let effE := if 2 * g.moves ≤ 3 * g.totalPieces then 3 * base.experience / 10 else 0
  let spdC := if g.completionTime ≤ speedThresholds g.difficulty then
      3 * base.coins / 10 else 0
  let spdE := if g.completionTime ≤ speedThresholds g.difficulty then
      base.experience / 5 else 0
  let sizeC := if 25 ≤ g.totalPieces then 10
    else if 16 ≤ g.totalPieces then 5 else 0
  let sizeE := if 25 ≤ g.totalPieces then 15
    else if 16 ≤ g.totalPieces then 8 else 0
  ⟨base.coins + effC + spdC + sizeC, base.experience + effE + spdE + sizeE⟩

/-! ## Theorems -/

/-- Closed form of the level loop: starting from any `level ≥ 1`, the loop
stops at `max level ((totalExp + 100) / 200)` (clamped to `Nat`). -/
theorem levelLoop_eq_max (totalExp : Int) (level : Nat) (h1 : 1 ≤ level) :
    levelLoop totalExp level = max level ((totalExp + 100) / 200).toNat := by
  rw [levelLoop]
  split
  · rename_i h
    rw [levelLoop_eq_max totalExp (level + 1) (by omega)]
    have h2 : ¬ (level + 1 ≤ 1) := by omega
    rw [getRequiredExpForLevel, if_neg h2] at h
    have h3 : ((level : Int) + 1) * 200 ≤ totalExp + 100 := by push_cast at h ⊢; omega
    have h4 : ((level : Int) + 1) ≤ (totalExp + 100) / 200 :=
      (Int.le_ediv_iff_mul_le (by omega)).mpr h3
    have h5 : level + 1 ≤ ((totalExp + 100) / 200).toNat := by
      have := Int.toNat_le_toNat h4
      simpa using this
    omega
  · rename_i h
    have h2 : ¬ (level + 1 ≤ 1) := by omega
    rw [getRequiredExpForLevel, if_neg h2] at h
    have h3 : totalExp + 100 < ((level : Int) + 1) * 200 := by push_cast at h ⊢; omega
    have h4 : (totalExp + 100) / 200 < (level : Int) + 1 :=
      (Int.ediv_lt_iff_lt_mul (by omega)).mpr h3
    have h5 : ((totalExp + 100) / 200).toNat ≤ level := by
      rw [Int.toNat_le]
      omega
    omega
termination_by ((totalExp + 100) / 200).toNat + 1 - level
decreasing_by
  rename_i h
  have h2 : ¬ (level + 1 ≤ 1) := by omega
  rw [getRequiredExpForLevel, if_neg h2] at h
  have h3 : ((level : Int) + 1) * 200 ≤ totalExp + 100 := by push_cast at h ⊢; omega
  have h4 : ((level : Int) + 1) ≤ (totalExp + 100) / 200 :=
    (Int.le_ediv_iff_mul_le (by omega)).mpr h3
  have h5 : level + 1 ≤ ((totalExp + 100) / 200).toNat := by
    have := Int.toNat_le_toNat h4
    simpa using this
  omega

/-- Closed form of `calculateLevelFromExp`. -/
theorem calculateLevelFromExp_eq (totalExp : Int) :
    calculateLevelFromExp totalExp =
      if totalExp ≤ 0 then 1 else max 1 ((totalExp + 100) / 200).toNat := by
  rw [calculateLevelFromExp]
  split
  · rfl
  · exact levelLoop_eq_max totalExp 1 le_rfl

/-- Claim C7: for every level `L ≥ 1`,
`calculateLevelFromExp (getRequiredExpForLevel L) = L` (with
`getRequiredExpForLevel L = 200·L − 100` for `L ≥ 2` and `0` for `L = 1`),
and `calculateLevelFromExp` is monotonically non-decreasing in its
input. -/
theorem claim7_level_roundtrip_and_monotone :
    (∀ L : Nat, 1 ≤ L →
      calculateLevelFromExp (getRequiredExpForLevel L) = L) ∧
    (∀ e1 e2 : Int, e1 ≤ e2 →
      calculateLevelFromExp e1 ≤ calculateLevelFromExp e2) := by
  have key : ∀ e : Int, calculateLevelFromExp e =
      if e ≤ 0 then 1 else max 1 ((e + 100) / 200).toNat :=
    calculateLevelFromExp_eq
  constructor
  · intro L hL
    rcases Nat.lt_or_ge L 2 with h2 | h2
    · have : L = 1 := by omega
      subst this
      rw [key, getRequiredExpForLevel]
      norm_num
    · have hreq : getRequiredExpForLevel L = 200 * (L : Int) - 100 := by
        rw [getRequiredExpForLevel, if_neg (by omega)]
      have hpos : ¬ (200 * (L : Int) - 100 ≤ 0) := by
        have : (2 : Int) ≤ (L : Int) := by exact_mod_cast h2
        omega
      rw [key, hreq, if_neg hpos]
      have hdiv : (200 * (L : Int) - 100 + 100) / 200 = (L : Int) := by
        have : 200 * (L : Int) - 100 + 100 = (L : Int) * 200 := by ring
        rw [this, Int.mul_ediv_cancel _ (by omega)]
      rw [hdiv]
      simp
      omega
  · intro e1 e2 hle
    rw [key, key]
    rcases le_or_lt e1 0 with h1 | h1
    · rw [if_pos h1]
      split
      · exact le_rfl
      · exact le_max_left 1 _
    · rw [if_neg (by omega), if_neg (by omega)]
      have : (e1 + 100) / 200 ≤ (e2 + 100) / 200 :=
        Int.ediv_le_ediv (by omega) (by omega)
      exact max_le_max le_rfl (Int.toNat_le_toNat this)

/-- Witness for claim C7 at concrete inputs `L = 5` and `-3 ≤ 250`. -/
theorem claim7_witness :
    calculateLevelFromExp (getRequiredExpForLevel 5) = 5 ∧
    calculateLevelFromExp (-3) ≤ calculateLevelFromExp 250 :=
  ⟨claim7_level_roundtrip_and_monotone.1 5 (by decide),
   claim7_level_roundtrip_and_monotone.2 (-3) 250 (by decide)⟩

/-- Claim C3 counterexample: with both the efficiency and the speed bonus
firing (`easy`, 9 pieces, 170 s, 10 moves), the code compounds the speed
bonus on the efficiency-boosted coins (10 → 15 → 15 + ⌊15·0.3⌋ = 19),
while the claim's independent-bonus formula yields
10 + ⌊10·0.5⌋ + ⌊10·0.3⌋ = 18. -/
theorem claim3_counterexample :
    calculateGameRewards ⟨.easy, 9, 170, 10⟩ = ⟨19, 22⟩ ∧
    claimIndependentRewards ⟨.easy, 9, 170, 10⟩ = ⟨18, 22⟩ ∧
    calculateGameRewards ⟨.easy, 9, 170, 10⟩ ≠
      claimIndependentRewards ⟨.easy, 9, 170, 10⟩ := by
  decide

/-- Claim C3 (amended): `calculateGameRewards` starts from the fixed
per-difficulty base and applies the three bonuses additively **in
sequence**: the efficiency bonus is computed from the base, but the speed
bonus percentages are computed from the running total after the
efficiency bonus (not from the base); the size bonus is a flat
addition. -/
theorem claim3_amended_sequential_bonuses (d : Difficulty) (p t m : Nat) :
    calculateGameRewards ⟨d, p, t, m⟩ =
      (let base := mkBaseRewards.get d
       let effC := if 2 * m ≤ 3 * p then base.coins / 2 else 0
       let effE := if 2 * m ≤ 3 * p then 3 * base.experience / 10 else 0
       let spdC := if t ≤ speedThresholds d then 3 * (base.coins + effC) / 10 else 0
       let spdE := if t ≤ speedThresholds d then (base.experience + effE) / 5 else 0
       let sizeC := if 25 ≤ p then 10 else if 16 ≤ p then 5 else 0
       let sizeE := if 25 ≤ p then 15 else if 16 ≤ p then 8 else 0
       ⟨base.coins + effC + spdC + sizeC,
        base.experience + effE + spdE + sizeE⟩) := by
  show (calculateGameRewardsBody ⟨d, p, t, m⟩ mkBaseRewards).1 = _
  simp only [calculateGameRewardsBody]
  split <;> split <;> (try split) <;> (try split) <;>
    simp [Rewards.mk.injEq]

/-- Claim C4: `calculateGameRewards` is deterministic and free of
cross-call interference.  In any sequence of calls (each allocating its
`baseRewards` table afresh, with the tables mutated by earlier calls kept
in a heap that is never read), every call's result is the same pure
function of its own input, and equal inputs give equal results. -/
theorem claim4_rewards_deterministic :
    (∀ (heap : List RewardTable) (gs : List GameData),
      (runRewardCalls heap gs).2 = gs.map calculateGameRewards) ∧
    (∀ g1 g2 : GameData, g1 = g2 →
      calculateGameRewards g1 = calculateGameRewards g2) := by
  constructor
  · intro heap gs
    induction gs generalizing heap with
    | nil => rfl
    | cons g gs ih =>
      simp only [runRewardCalls, List.map_cons]
      rw [ih]
      rfl
  · intro g1 g2 h
    rw [h]

/-- Witness for claim C4: a concrete two-call sequence and a concrete
repeated input. -/
theorem claim4_witness :
    (runRewardCalls [] [⟨.easy, 9, 170, 10⟩, ⟨.hard, 25, 500, 30⟩]).2 =
      [⟨.easy, 9, 170, 10⟩, ⟨.hard, 25, 500, 30⟩].map calculateGameRewards ∧
    calculateGameRewards ⟨.easy, 9, 170, 10⟩ =
      calculateGameRewards ⟨.easy, 9, 170, 10⟩ :=
  ⟨claim4_rewards_deterministic.1 [] _,
   claim4_rewards_deterministic.2 _ _ rfl⟩

/-- Claim C2 exhibits the reward-credit bug: a progress-only call
(`progress` stays below `maxProgress`, `wasUnlocked = false`) still
credits the full reward to `user_stats` whenever
`reward_experience > 0`, because the source condition
`wasUnlocked && reward_coins > 0 || reward_experience > 0` groups as
`(wasUnlocked && reward_coins > 0) || (reward_experience > 0)`.
Here: maxProgress 10, rewards 100/50, existing progress 0, delta 1. -/
theorem claim2_nonunlocking_call_credits_rewards :
    (applyProgress ⟨10, 100, 50⟩ 1 42 ⟨some ⟨0, false, none⟩, ⟨1, 0, 0, 0, 0⟩⟩).2.wasUnlocked
      = false ∧
    (applyProgress ⟨10, 100, 50⟩ 1 42 ⟨some ⟨0, false, none⟩, ⟨1, 0, 0, 0, 0⟩⟩).2.alreadyUnlocked
      = false ∧
    (applyProgress ⟨10, 100, 50⟩ 1 42 ⟨some ⟨0, false, none⟩, ⟨1, 0, 0, 0, 0⟩⟩).1.stats
      = ⟨1, 50, 100, 0, 0⟩ := by
  decide

/-- Claim C8: once the achievement row has `is_unlocked = true`, a further
unlock call is a pure no-op: it returns the original state unchanged
(progress, unlock flag, unlock timestamp and `user_stats` untouched, so
rewards are never re-credited) and reports "already unlocked". -/
theorem claim8_already_unlocked_noop (a : Achievement) (delta now : Nat)
    (st : UnlockState) (ua : UserAchievement)
    (hrow : st.userAchievement = some ua) (hun : ua.isUnlocked = true) :
    applyProgress a delta now st =
      (st, { alreadyUnlocked := true, wasUnlocked := false,
             rewardsGiven := false, progressReported := ua.progress }) := by
  unfold applyProgress
  rw [hrow]
  simp [hun]

/-- Witness for claim C8 at a concrete unlocked row. -/
theorem claim8_witness :
    applyProgress ⟨5, 10, 10⟩ 3 7 ⟨some ⟨5, true, some 1⟩, ⟨1, 0, 0, 0, 0⟩⟩ =
      (⟨some ⟨5, true, some 1⟩, ⟨1, 0, 0, 0, 0⟩⟩, ⟨true, false, false, 5⟩) :=
  claim8_already_unlocked_noop _ _ _ _ _ rfl rfl

/-- When the `user_stats` row is absent the transaction body throws
(the `InvariantViolation` branch). -/
theorem completeGameBody_stats_none (g : GameData) (db : GamesDb)
    (h : db.stats = none) : completeGameBody g db = Except.error () := by
  unfold completeGameBody
  dsimp only
  split
  · rfl
  · rename_i st heq
    split at heq <;> simp [h] at heq

/-- Claim C10: when the authenticated user's `user_stats` row is missing,
the completion transaction throws after its earlier writes (game record,
best-time upsert) and the whole transaction rolls back: the observable
state is exactly the original one — no game record, best-time update,
recent game, leaderboard entry, or partial economy credit persists. -/
theorem claim10_missing_stats_rolls_back (g : GameData) (db : GamesDb)
    (h : db.stats = none) : completeGame g db = (db, Except.error ()) := by
  unfold completeGame runTransaction
  rw [completeGameBody_stats_none g db h]

/-- Witness for claim C10 at a concrete game and a database whose
`user_stats` row is absent. -/
theorem claim10_witness :
    completeGame ⟨.easy, 9, 170, 10⟩ ⟨[], none, none, [], []⟩ =
      (⟨[], none, none, [], []⟩, Except.error ()) :=
  claim10_missing_stats_rolls_back _ _ rfl

/-- Shape of a successful completion: the outcome's score, record flag and
leaderboard flag, and the leaderboard of the committed state. -/
theorem completeGame_ok_shape (g : GameData) (db db' : GamesDb)
    (r : CompleteOutcome) (h : completeGame g db = (db', Except.ok r)) :
    r.score = calculateGameScore g ∧
    r.newRecord = isNewRecord g db.bestRecord ∧
    r.addedToLeaderboard =
      (isNewRecord g db.bestRecord || decide (1000 < calculateGameScore g)) ∧
    db'.leaderboard =
      (if (isNewRecord g db.bestRecord || decide (1000 < calculateGameScore g)) = true
       then db.leaderboard ++ [⟨g.completionTime, g.moves, calculateGameScore g⟩]
       else db.leaderboard) := by
  rcases hb : completeGameBody g db with e | pr
  · rw [completeGame, runTransaction, hb] at h
    simp at h
  · rw [completeGame, runTransaction, hb] at h
    obtain ⟨pr1, pr2⟩ := pr
    simp only [Prod.mk.injEq, Except.ok.injEq] at h
    obtain ⟨hdb, hr⟩ := h
    subst hdb
    subst hr
    unfold completeGameBody at hb
    dsimp only at hb
    split at hb
    · exact absurd hb (by simp)
    · rename_i st heq
      simp only [Except.ok.injEq, Prod.mk.injEq] at hb
      obtain ⟨hdb5, hr5⟩ := hb
      subst hr5
      refine ⟨rfl, rfl, rfl, ?_⟩
      rw [← hdb5]
      split <;> split <;> simp_all

/-- Claim C9: after a single-player completion that commits, a leaderboard
row (with that attempt's time, moves and score) is appended if and only if
`isNewRecord` was true for the attempt or the computed score is strictly
greater than 1000; a completion qualifying under neither condition leaves
the leaderboard unchanged. -/
theorem claim9_leaderboard_qualification (g : GameData) (db db' : GamesDb)
    (r : CompleteOutcome) (h : completeGame g db = (db', Except.ok r)) :
    (db'.leaderboard = db.leaderboard ++ [⟨g.completionTime, g.moves, r.score⟩] ↔
      (isNewRecord g db.bestRecord = true ∨ 1000 < r.score)) ∧
    ((isNewRecord g db.bestRecord = false ∧ r.score ≤ 1000) →
      db'.leaderboard = db.leaderboard) := by
  obtain ⟨hs, _hn, _ha, hl⟩ := completeGame_ok_shape g db db' r h
  rw [hs]
  constructor
  · constructor
    · intro heq
      by_contra hcon
      push_neg at hcon
      obtain ⟨h1, h2⟩ := hcon
      rw [hl, if_neg (by simp [h1, h2])] at heq
      have := congrArg List.length heq
      simp at this
    · intro hcond
      rw [hl, if_pos (by rcases hcond with h1 | h1 <;> simp [h1])]
  · intro hc
    obtain ⟨h1, h2⟩ := hc
    rw [hl, if_neg (by simp [h1]; omega)]

/-- Witness for claim C9: a concrete committed completion (fresh user,
no prior best record, so `isNewRecord` is true and a row is appended). -/
theorem claim9_witness :
    ∃ (db' : GamesDb) (r : CompleteOutcome),
      completeGame ⟨.easy, 9, 170, 10⟩ ⟨[], none, some ⟨1, 0, 0, 0, 0⟩, [], []⟩ =
        (db', Except.ok r) ∧
      (db'.leaderboard = [] ++ [⟨170, 10, r.score⟩] ↔
        (isNewRecord ⟨.easy, 9, 170, 10⟩ none = true ∨ 1000 < r.score)) := by
  have hlvl : calculateLevelFromExp (22 : Int) = 1 := by
    rw [calculateLevelFromExp, if_neg (by decide), levelLoop, if_neg (by decide)]
  have hrew : calculateGameRewards ⟨.easy, 9, 170, 10⟩ = ⟨19, 22⟩ := by decide
  have hsc : calculateGameScore ⟨.easy, 9, 170, 10⟩ = 226 := by decide
  have hnr : isNewRecord ⟨.easy, 9, 170, 10⟩ none = true := by decide
  have hwit : completeGame ⟨.easy, 9, 170, 10⟩ ⟨[], none, some ⟨1, 0, 0, 0, 0⟩, [], []⟩ =
      (⟨[⟨170, 10, 226, 19, 22⟩], some ⟨170, 10⟩, some ⟨1, 22, 19, 226, 1⟩,
        [⟨10, 9, 170⟩], [⟨170, 10, 226⟩]⟩,
       Except.ok ⟨226, ⟨19, 22⟩, true, false, true⟩) := by
    simp [completeGame, runTransaction, completeGameBody, hrew, hsc, hnr,
      upsertBestRecord, hlvl]
  exact ⟨_, _, hwit, (claim9_leaderboard_qualification _ _ _ _ hwit).1⟩

/-- Claim C5 exhibits the ready/start dead-end: in a 2-player room, the
guest readies up (room stays `waiting`), then the host readies up, which
flips the room to aggregate status `ready`; the host's subsequent
`startGame` — with 2 players and every non-host player ready — is rejected
with the not-found error because its lookup requires status `waiting`,
and the room is left in status `ready`. -/
theorem claim5_ready_status_blocks_start :
    setReady 10 2 ⟨1, .waiting,
        [⟨1, .joined, true, none⟩, ⟨2, .joined, false, none⟩], none⟩ =
      Except.ok ⟨1, .waiting,
        [⟨1, .joined, true, none⟩, ⟨2, .ready, false, some 10⟩], none⟩ ∧
    setReady 11 1 ⟨1, .waiting,
        [⟨1, .joined, true, none⟩, ⟨2, .ready, false, some 10⟩], none⟩ =
      Except.ok ⟨1, .ready,
        [⟨1, .ready, true, some 11⟩, ⟨2, .ready, false, some 10⟩], none⟩ ∧
    (∀ p ∈ ([⟨1, .ready, true, some 11⟩, ⟨2, .ready, false, some 10⟩] :
        List RoomPlayer), p.status = .ready) ∧
    startGame 12 1 ⟨1, .ready,
        [⟨1, .ready, true, some 11⟩, ⟨2, .ready, false, some 10⟩], none⟩ =
      Except.error .roomNotFound := by
  refine ⟨?_, ?_, ?_, ?_⟩ <;> decide

/-- `strictlyPrecedes` unfolded to arithmetic. -/
theorem strictlyPrecedes_iff (a b : FinishedRow) :
    strictlyPrecedes a b = true ↔
      (a.completionTime < b.completionTime ∨
       (a.completionTime = b.completionTime ∧ a.movesCount < b.movesCount) ∨
       (a.completionTime = b.completionTime ∧ a.movesCount = b.movesCount ∧
        a.finishedAt < b.finishedAt)) := by
  simp only [strictlyPrecedes, Bool.or_eq_true, Bool.and_eq_true,
    decide_eq_true_eq]
  tauto

/-- A row never strictly precedes itself. -/
theorem strictlyPrecedes_irrefl (a : FinishedRow) :
    strictlyPrecedes a a = false := by
  rw [Bool.eq_false_iff, Ne, strictlyPrecedes_iff]
  omega

/-- Strict precedence is asymmetric. -/
theorem strictlyPrecedes_asymm {a b : FinishedRow}
    (h : strictlyPrecedes a b = true) : strictlyPrecedes b a = false := by
  rw [strictlyPrecedes_iff] at h
  rw [Bool.eq_false_iff, Ne, strictlyPrecedes_iff]
  omega

/-- Strict precedence is transitive. -/
theorem strictlyPrecedes_trans {a b c : FinishedRow}
    (h1 : strictlyPrecedes a b = true) (h2 : strictlyPrecedes b c = true) :
    strictlyPrecedes a c = true := by
  rw [strictlyPrecedes_iff] at h1 h2 ⊢
  omega

/-- Rows with distinct `(completionTime, movesCount, finishedAt)` triples
are comparable. -/
theorem strictlyPrecedes_total_of_ne {a b : FinishedRow}
    (h : (a.completionTime, a.movesCount, a.finishedAt) ≠
         (b.completionTime, b.movesCount, b.finishedAt)) :
    strictlyPrecedes a b = true ∨ strictlyPrecedes b a = true := by
  rw [strictlyPrecedes_iff, strictlyPrecedes_iff]
  have h' : ¬ (a.completionTime = b.completionTime ∧
      a.movesCount = b.movesCount ∧ a.finishedAt = b.finishedAt) := by
    simpa [Prod.ext_iff] using h
  omega

/-- The sort key of the winner query is the complement of strict
precedence. -/
theorem finishOrderLe_trans (a b c : FinishedRow)
    (h1 : finishOrderLe a b = true) (h2 : finishOrderLe b c = true) :
    finishOrderLe a c = true := by
  simp only [finishOrderLe, Bool.not_eq_true'] at h1 h2 ⊢
  rw [Bool.eq_false_iff, Ne, strictlyPrecedes_iff]
  rw [Bool.eq_false_iff, Ne, strictlyPrecedes_iff] at h1 h2
  omega

/-- The sort key is total. -/
theorem finishOrderLe_total (a b : FinishedRow) :
    (finishOrderLe a b || finishOrderLe b a) = true := by
  simp only [finishOrderLe, Bool.or_eq_true, Bool.not_eq_true']
  rcases hab : strictlyPrecedes a b with _ | _
  · right
    rfl
  · left
    exact strictlyPrecedes_asymm hab

/-- On a strictly sorted list, the settlement ranks
`1 + COUNT(strictly preceding rows)` are exactly `1, 2, …, N`
in order. -/
theorem ranks_of_strictSorted (s : List FinishedRow)
    (hs : s.Pairwise (fun a b => strictlyPrecedes a b = true)) :
    s.map (fun p => 1 + s.countP (fun q => strictlyPrecedes q p)) =
      List.range' 1 s.length := by
  induction s with
  | nil => rfl
  | cons a t ih =>
    rw [List.pairwise_cons] at hs
    obtain ⟨ha, ht⟩ := hs
    have hhead : (a :: t).countP (fun q => strictlyPrecedes q a) = 0 := by
      rw [List.countP_eq_zero]
      intro x hx
      rcases List.mem_cons.mp hx with hx | hx
      · subst hx
        simp [strictlyPrecedes_irrefl]
      · simp [strictlyPrecedes_asymm (ha x hx)]
    have htail : ∀ p ∈ t,
        1 + (a :: t).countP (fun q => strictlyPrecedes q p) =
          (1 + t.countP (fun q => strictlyPrecedes q p)) + 1 := by
      intro p hp
      rw [List.countP_cons]
      simp [ha p hp]
      omega
    rw [List.map_cons, List.length_cons, List.range'_succ, hhead]
    congr 1
    rw [List.map_congr_left htail]
    have : t.map (fun p => (1 + t.countP (fun q => strictlyPrecedes q p)) + 1)
        = (t.map (fun p => 1 + t.countP (fun q => strictlyPrecedes q p))).map
            (fun x => x + 1) := by
      rw [List.map_map]
      rfl
    rw [this, ih ht]
    have h2 : (fun x => x + 1) = (fun x => 1 + x) := by
      funext x
      omega
    rw [h2, List.map_add_range']

/-- Distinctness of the settlement triples, as a pairwise relation. -/
def distinctTriples (rows : List FinishedRow) : Prop :=
  rows.Pairwise (fun a b =>
    (a.completionTime, a.movesCount, a.finishedAt) ≠
    (b.completionTime, b.movesCount, b.finishedAt))

/-- Under pairwise-distinct triples, the sorted list is strictly
sorted. -/
theorem mergeSort_strictSorted (rows : List FinishedRow)
    (hdist : distinctTriples rows) :
    (rows.mergeSort finishOrderLe).Pairwise
      (fun a b => strictlyPrecedes a b = true) := by
  have hsorted : (rows.mergeSort finishOrderLe).Pairwise
      (fun a b => finishOrderLe a b = true) :=
    List.sorted_mergeSort finishOrderLe_trans finishOrderLe_total rows
  have hdist' : (rows.mergeSort finishOrderLe).Pairwise
      (fun a b =>
        (a.completionTime, a.movesCount, a.finishedAt) ≠
        (b.completionTime, b.movesCount, b.finishedAt)) :=
    hdist.perm (List.mergeSort_perm rows finishOrderLe).symm
      (fun h hx => h hx.symm)
  refine (hsorted.and hdist').imp ?_
  rintro a b ⟨hle, hne⟩
  rcases strictlyPrecedes_total_of_ne hne with h | h
  · exact h
  · rw [finishOrderLe, h] at hle
    simp at hle

/-- Settlement rank values are a permutation of `1..N` when the
settlement triples are pairwise distinct. -/
theorem ranks_perm (rows : List FinishedRow) (hdist : distinctTriples rows) :
    (rows.map (rankPosition rows)).Perm (List.range' 1 rows.length) := by
  have hperm : (rows.mergeSort finishOrderLe).Perm rows :=
    List.mergeSort_perm rows finishOrderLe
  have hcount : ∀ p, rankPosition rows p =
      1 + (rows.mergeSort finishOrderLe).countP
            (fun q => strictlyPrecedes q p) := by
    intro p
    rw [rankPosition, hperm.countP_eq]
  have h1 : (rows.map (rankPosition rows)).Perm
      ((rows.mergeSort finishOrderLe).map (rankPosition rows)) :=
    (hperm.map (rankPosition rows)).symm
  have h2 : (rows.mergeSort finishOrderLe).map (rankPosition rows) =
      List.range' 1 rows.length := by
    rw [List.map_congr_left (fun p _ => hcount p)]
    rw [← hperm.length_eq]
    exact ranks_of_strictSorted _ (mergeSort_strictSorted rows hdist)
  rw [← h2]
  exact h1

/-- Under pairwise-distinct triples the winner query returns a row of
rank 1. -/
theorem winnerRow_rank_one (rows : List FinishedRow) (hne : rows ≠ [])
    (hdist : distinctTriples rows) :
    ∃ w, winnerRow rows = some w ∧ rankPosition rows w = 1 := by
  have hperm : (rows.mergeSort finishOrderLe).Perm rows :=
    List.mergeSort_perm rows finishOrderLe
  have hlen : (rows.mergeSort finishOrderLe).length = rows.length :=
    hperm.length_eq
  rcases hs : rows.mergeSort finishOrderLe with _ | ⟨w, t⟩
  · rw [hs] at hlen
    have : rows.length ≠ 0 := fun h0 => hne (List.length_eq_zero.mp h0)
    simp at hlen
    exact absurd hlen.symm this
  · refine ⟨w, by rw [winnerRow, hs]; rfl, ?_⟩
    have hstrict := mergeSort_strictSorted rows hdist
    rw [hs, List.pairwise_cons] at hstrict
    obtain ⟨hw, _⟩ := hstrict
    rw [rankPosition, ← hperm.countP_eq, hs, List.countP_cons]
    have hzero : t.countP (fun q => strictlyPrecedes q w) = 0 := by
      rw [List.countP_eq_zero]
      intro x hx
      simp [strictlyPrecedes_asymm (hw x hx)]
    rw [hzero]
    simp [strictlyPrecedes_irrefl]

/-- Claim C1 (amended): at closure, each player's `rank_position` is
`1 + (number of players strictly preceding them)` under the order
(smaller `completionTime`, then smaller `movesCount`, then earlier
`finishedAt`); **provided the `(completionTime, movesCount, finishedAt)`
triples are pairwise distinct**, the ranks form a permutation of `1..N`
and the winner written to the game record (the first row of the
settlement sort) has rank 1. -/
theorem claim1_ranks_permutation_winner (rows : List FinishedRow)
    (hne : rows ≠ []) (hdist : distinctTriples rows) :
    (rows.map (rankPosition rows)).Perm (List.range' 1 rows.length) ∧
    ∃ w, winnerRow rows = some w ∧ rankPosition rows w = 1 :=
  ⟨ranks_perm rows hdist, winnerRow_rank_one rows hne hdist⟩

/-- Witness for claim C1: the spec's own two-player scenario
(120 s / 45 moves versus 150 s / 52 moves). -/
theorem claim1_witness :
    (([⟨1, 120, 45, 1⟩, ⟨2, 150, 52, 2⟩] : List FinishedRow).map
      (rankPosition [⟨1, 120, 45, 1⟩, ⟨2, 150, 52, 2⟩])).Perm
        (List.range' 1 2) ∧
    ∃ w, winnerRow [⟨1, 120, 45, 1⟩, ⟨2, 150, 52, 2⟩] = some w ∧
      rankPosition [⟨1, 120, 45, 1⟩, ⟨2, 150, 52, 2⟩] w = 1 :=
  claim1_ranks_permutation_winner _ (by decide)
    (by constructor <;> simp [distinctTriples])

/-- Claim C1 counterexample: when two players report identical
`(completionTime, movesCount)` and their `finished_at` timestamps
coincide (MySQL `NOW()` has second precision, so two finishes in the same
second collide), neither strictly precedes the other, both are assigned
rank 1, and the rank values are not a permutation of `1..2`. -/
theorem claim1_counterexample :
    (([⟨1, 100, 50, 5⟩, ⟨2, 100, 50, 5⟩] : List FinishedRow).map
      (rankPosition [⟨1, 100, 50, 5⟩, ⟨2, 100, 50, 5⟩])) = [1, 1] ∧
    ¬ (([⟨1, 100, 50, 5⟩, ⟨2, 100, 50, 5⟩] : List FinishedRow).map
      (rankPosition [⟨1, 100, 50, 5⟩, ⟨2, 100, 50, 5⟩])).Perm
        (List.range' 1 2) := by
  have hranks : (([⟨1, 100, 50, 5⟩, ⟨2, 100, 50, 5⟩] : List FinishedRow).map
      (rankPosition [⟨1, 100, 50, 5⟩, ⟨2, 100, 50, 5⟩])) = [1, 1] := by decide
  refine ⟨hranks, ?_⟩
  rw [hranks]
  decide

/-- If every attempt in range is taken, the retry loop runs to the end of
its fuel and reports the final attempt count. -/
theorem roomCodeAttemptsLoop_all_taken (gen : Nat → String)
    (taken : String → Bool) :
    ∀ (fuel attempts : Nat),
      (∀ j, attempts ≤ j → j < attempts + fuel → taken (gen j) = true) →
      roomCodeAttemptsLoop gen taken attempts fuel =
        (gen (attempts + fuel), attempts + fuel + 1) := by
  intro fuel
  induction fuel with
  | zero =>
    intro attempts _
    simp [roomCodeAttemptsLoop]
  | succ fuel ih =>
    intro attempts h
    have hcur : taken (gen attempts) = true := h attempts le_rfl (by omega)
    rw [roomCodeAttemptsLoop]
    simp only [hcur, if_true]
    have := ih (attempts + 1) (fun j hj1 hj2 => h j (by omega) (by omega))
    rw [this]
    have harith : attempts + 1 + fuel = attempts + (fuel + 1) := by omega
    rw [harith]

/-- If attempt `i` is the first untaken one and the fuel reaches it, the
retry loop stops there with `attempts = i + 1`. -/
theorem roomCodeAttemptsLoop_found (gen : Nat → String)
    (taken : String → Bool) :
    ∀ (fuel attempts i : Nat), attempts ≤ i → i < attempts + fuel →
      taken (gen i) = false →
      (∀ j, attempts ≤ j → j < i → taken (gen j) = true) →
      roomCodeAttemptsLoop gen taken attempts fuel = (gen i, i + 1) := by
  intro fuel
  induction fuel with
  | zero =>
    intro attempts i h1 h2 _ _
    omega
  | succ fuel ih =>
    intro attempts i h1 h2 h3 h4
    rcases Nat.eq_or_lt_of_le h1 with heq | hlt
    · subst heq
      rw [roomCodeAttemptsLoop]
      simp only [h3]
      rfl
    · have hcur : taken (gen attempts) = true := h4 attempts le_rfl hlt
      rw [roomCodeAttemptsLoop]
      simp only [hcur, if_true]
      exact ih (attempts + 1) i hlt (by omega) h3
        (fun j hj1 hj2 => h4 j (by omega) hj2)

/-- Every generated room code has 8 characters drawn from the
`[A-Z0-9]` alphabet. -/
theorem generateRoomCode_shape (draw : Nat → Fin 36) :
    (generateRoomCode draw).length = 8 ∧
    ∀ c ∈ (generateRoomCode draw).toList, c ∈ roomCodeChars := by
  constructor
  · rfl
  · intro c hc
    have hc' : c ∈ (List.range 8).map
        (fun i => roomCodeChars.getD (draw i).val 'A') := hc
    rw [List.mem_map] at hc'
    obtain ⟨i, _, hi⟩ := hc'
    rw [← hi]
    have hmem : ∀ v : Fin 36, roomCodeChars.getD v.val 'A' ∈ roomCodeChars := by
      decide
    exact hmem (draw i)

/-- Claim C6 (amended): room codes are 8 characters from `[A-Z0-9]`, and
code allocation succeeds exactly when one of the **first 9** attempts
produces a code held by no non-terminal room: if all of the first 9
attempts collide, allocation fails with `CodeAllocationExhausted` even
when the 10th attempt generates a fresh code (the `attempts >= maxAttempts`
check fires after the do-while exits with `attempts = 10`); if attempt
`i < 9` is the first fresh one, that code is returned. -/
theorem claim6_code_allocation (draws : Nat → Nat → Fin 36)
    (taken : String → Bool) :
    ((generateRoomCode (draws 0)).length = 8 ∧
      ∀ c ∈ (generateRoomCode (draws 0)).toList, c ∈ roomCodeChars) ∧
    ((∀ i, i < 9 → taken (generateRoomCode (draws i)) = true) →
      generateUniqueRoomCode draws taken = none) ∧
    (∀ i, i < 9 → taken (generateRoomCode (draws i)) = false →
      (∀ j, j < i → taken (generateRoomCode (draws j)) = true) →
      generateUniqueRoomCode draws taken = some (generateRoomCode (draws i))) := by
  refine ⟨generateRoomCode_shape (draws 0), ?_, ?_⟩
  · intro h
    rw [generateUniqueRoomCode]
    rw [roomCodeAttemptsLoop_all_taken _ _ 9 0
      (fun j _ hj2 => h j (by omega))]
    rfl
  · intro i hi hfresh hprev
    rw [generateUniqueRoomCode]
    rw [roomCodeAttemptsLoop_found _ _ 9 0 i (Nat.zero_le i) (by omega)
      hfresh (fun j _ hj2 => hprev j hj2)]
    simp only []
    rw [if_neg (by omega)]

/-- Witness for claim C6: a draw family whose attempt `a` yields eight
copies of alphabet character `a`; with everything taken, allocation
fails; with the code of attempt 0 available, it is returned. -/
theorem claim6_witness :
    ((generateRoomCode ((fun a _ => ⟨a % 36, Nat.mod_lt _ (by decide)⟩ :
        Nat → Nat → Fin 36) 0)).length = 8 ∧
      ∀ c ∈ (generateRoomCode ((fun a _ => ⟨a % 36, Nat.mod_lt _ (by decide)⟩ :
        Nat → Nat → Fin 36) 0)).toList, c ∈ roomCodeChars) ∧
    generateUniqueRoomCode (fun a _ => ⟨a % 36, Nat.mod_lt _ (by decide)⟩)
      (fun _ => true) = none ∧
    generateUniqueRoomCode (fun a _ => ⟨a % 36, Nat.mod_lt _ (by decide)⟩)
      (fun c => c != "AAAAAAAA") = some "AAAAAAAA" := by
  refine ⟨(claim6_code_allocation
      (fun a _ => ⟨a % 36, Nat.mod_lt _ (by decide)⟩) (fun _ => true)).1,
    (claim6_code_allocation
      (fun a _ => ⟨a % 36, Nat.mod_lt _ (by decide)⟩)
      (fun _ => true)).2.1 (fun i _ => rfl), ?_⟩
  have h := (claim6_code_allocation
      (fun a _ => ⟨a % 36, Nat.mod_lt _ (by decide)⟩)
      (fun c => c != "AAAAAAAA")).2.2 0 (by decide) (by decide)
      (fun j hj => absurd hj (Nat.not_lt_zero j))
  rw [h]
  decide

/-- Claim C6 counterexample: with the first 9 attempts colliding and the
10th attempt generating an available code, `generateUniqueRoomCode` still
fails — so "fails only if every allowed attempt collides" is false for a
10-attempt bound (the effective bound is 9). -/
theorem claim6_counterexample :
    generateUniqueRoomCode (fun a _ => ⟨a % 36, Nat.mod_lt _ (by decide)⟩)
      (fun c => c != "JJJJJJJJ") = none ∧
    (fun c => c != "JJJJJJJJ")
      (generateRoomCode ((fun a _ => ⟨a % 36, Nat.mod_lt _ (by decide)⟩ :
        Nat → Nat → Fin 36) 9)) = false := by
  decide

